import Mathlib

/-!
Verification of the connection and response-parsing engine of `browser.py`.

The Python source is shallowly embedded: byte streams are lists of `Char`
(one `Char` per byte; every input exercised here is ASCII, so the source's
`decode("utf-8", errors="replace")` calls are the identity and are modelled
as such), stateful socket code becomes explicit state passing, and every
`raise` becomes an `Except.error` carrying a constructor that names the
Python exception site.  Loops whose Python termination depends on the
stream shrinking are given an explicit fuel argument initialised to
`length + 1`, which is shown sufficient; `Err.outOfFuel` marks the model
artifact of running out of fuel and corresponds to the Python code still
running.
-/

deriving instance DecidableEq for Except

/-- Byte strings: one `Char` per byte. -/
abbrev Str := List Char

/-- The byte stream a response file object reads from. -/
abbrev ByteStream := List Char

/-- Error outcomes.  Each constructor names the Python exception raised at
the corresponding site in `browser.py`. -/
inductive Err where
  /-- `AssertionError` from the scheme assertion in `URL.__init__` (line 33). -/
  | unsupportedScheme
  /-- `ValueError` from tuple unpacking of a failed `split`, or from `int()`. -/
  | valueError
  /-- `AttributeError` from `None.startswith` when a redirect has no `location` header. -/
  | attributeError
  /-- `AssertionError` from `assert "content-encoding" not in headers` (line 183). -/
  | assertionError
  /-- The `ValueError` raised in `_read_body` when neither `transfer-encoding`
  nor `content-length` is present (line 128); the spec names it `MissingFramingError`. -/
  | missingFraming
  /-- Model artifact: fuel ran out.  The Python code would still be running. -/
  | outOfFuel
deriving DecidableEq, Repr

/-- `file.readline()`: bytes up to and including the first `'\n'`; at
end-of-input, whatever remains (possibly nothing). -/
def readLine : ByteStream → Str × ByteStream
  | [] => ([], [])
  | c :: cs =>
    if c = '\n' then ([c], cs)
    else
      let p := readLine cs
      (c :: p.1, p.2)

/-- `file.read(n)` on a blocking socket file: exactly `n` bytes unless the
stream ends first; a negative `n` reads to end-of-input (Python buffered
`read` semantics). -/
def readN (n : Int) (s : ByteStream) : Str × ByteStream :=
  if n < 0 then (s, []) else (s.take n.toNat, s.drop n.toNat)

/-- Python `str.strip()` whitespace (ASCII part). -/
def pyWS (c : Char) : Bool :=
  c = ' ' ∨ c = '\t' ∨ c = '\n' ∨ c = '\r' ∨ c = '\x0b' ∨ c = '\x0c'

/-- Python `str.strip()`. -/
def pyStrip (s : Str) : Str :=
  ((s.dropWhile pyWS).reverse.dropWhile pyWS).reverse

/-- Python `s.split(sep, 1)` when it yields two parts: the text before the
first occurrence of `sep` and the text after it; `none` when `sep` does not
occur (where the source unpacks into two variables, `none` is a `ValueError`). -/
def splitOnce (sep : Str) : Str → Option (Str × Str)
  | [] => if sep.isPrefixOf ([] : Str) then some ([], []) else none
  | c :: cs =>
    if sep.isPrefixOf (c :: cs) then some ([], (c :: cs).drop sep.length)
    else
      match splitOnce sep cs with
      | some (a, b) => some (c :: a, b)
      | none => none

/-- Python `s.split(ch, maxsplit)` for a single-character separator. -/
def splitCharN (sep : Char) : Nat → Str → List Str
  | _, [] => [[]]
  | 0, s => [s]
  | n + 1, c :: cs =>
    if c = sep then [] :: splitCharN sep n cs
    else
      match splitCharN sep (n + 1) cs with
      | [] => [[c]]
      | h :: t => (c :: h) :: t

/-- Value of one digit character, as Python `int(_, base)` accepts them. -/
def digitVal (c : Char) : Option Nat :=
  if '0' ≤ c ∧ c ≤ '9' then some (c.toNat - '0'.toNat)
  else if 'a' ≤ c ∧ c ≤ 'z' then some (c.toNat - 'a'.toNat + 10)
  else if 'A' ≤ c ∧ c ≤ 'Z' then some (c.toNat - 'A'.toNat + 10)
  else none

/-- Digit-string value in the given base; `none` when empty or when a
character is not a digit of the base. -/
def digitsVal (base : Nat) (acc : Nat) : Str → Option Nat
  | [] => some acc
  | c :: cs =>
    match digitVal c with
    | some d => if d < base then digitsVal base (acc * base + d) cs else none
    | none => none

/-- Unsigned part of Python `int(s, base)`: optional `0x`/`0X` marker when
the base is 16, then a non-empty digit run.  (Underscore digit grouping,
which no input here uses, is not modelled.) -/
def pyIntDigits (base : Nat) (s : Str) : Option Nat :=
  let t :=
    match s with
    | '0' :: c :: rest => if base = 16 ∧ (c = 'x' ∨ c = 'X') then rest else s
    | _ => s
  if t = [] then none else digitsVal base 0 t

/-- Python `int(s, base)`: surrounding whitespace stripped, optional sign,
then digits; `none` is Python's `ValueError`. -/
def pyIntBase (base : Nat) (s : Str) : Option Int :=
  match pyStrip s with
  | '-' :: rest => (pyIntDigits base rest).map (fun n => -(n : Int))
  | '+' :: rest => (pyIntDigits base rest).map (fun n => (n : Int))
  | t => (pyIntDigits base t).map (fun n => (n : Int))

/-- Python `str.casefold()` restricted to the ASCII header names that occur
here: lower-case each character. -/
def lowerStr (s : Str) : Str := s.map Char.toLower

/-- A Python `dict` keyed by strings, as an insertion-ordered association
list with unique keys. -/
abbrev Dict (α : Type) := List (Str × α)

/-- `d[k]` / `d.get(k)`. -/
def dictGet {α : Type} (k : Str) : Dict α → Option α
  | [] => none
  | (k', v) :: rest => if k' = k then some v else dictGet k rest

/-- `k in d`. -/
def dictHasKey {α : Type} (k : Str) (d : Dict α) : Bool :=
  (dictGet k d).isSome

/-- `d[k] = v`: overwrite in place, or append a new key at the end
(Python dict insertion order). -/
def dictInsert {α : Type} (k : Str) (v : α) : Dict α → Dict α
  | [] => [(k, v)]
  | (k', v') :: rest =>
    if k' = k then (k, v) :: rest else (k', v') :: dictInsert k v rest

/-- Response headers: casefolded name to stripped value. -/
abbrev Headers := Dict Str

/-- The `URL` record built by `URL.__init__` (lines 6-62). -/
structure URL where
  scheme : Str
  host : Str
  port : Option Int
  path : Str
  is_view_source : Bool
deriving DecidableEq, Repr

/-- `SUPPORTED_SCHEMES` (line 4). -/
def supportedScheme (s : Str) : Bool :=
  s = "http".toList ∨ s = "https".toList ∨ s = "file".toList ∨ s = "data".toList

/-- `URL.__init__` after scheme extraction (lines 31-62): the scheme
assertion, then the data/file early returns, then host/path/port splitting.
`schemeOpt = none` models `self.scheme = None` from the final `else`. -/
def URL.initRest (schemeOpt : Option Str) (url : Str) (vs : Bool) : Except Err URL :=
  match schemeOpt with
  | none => .error .unsupportedScheme
  | some scheme =>
    if supportedScheme scheme then
      if scheme = "data".toList then .ok ⟨scheme, [], none, url, vs⟩
      else if scheme = "file".toList then .ok ⟨scheme, [], none, url, vs⟩
      else
        let url2 := if url.contains '/' then url else url ++ ['/']
        match splitOnce (['/']) url2 with
        | none => .error .valueError
        | some (host, rest) =>
          let path := '/' :: rest
          if host.contains ':' then
            match splitOnce ([':']) host with
            | none => .error .valueError
            | some (h, pstr) =>
              match pyIntBase 10 pstr with
              | some p => .ok ⟨scheme, h, some p, path, vs⟩
              | none => .error .valueError
          else
            .ok ⟨scheme, host, some (if scheme = "https".toList then (443 : Int) else 80), path, vs⟩
    else .error .unsupportedScheme

/-- `URL.__init__` (lines 11-62).  The `data:`/`file:` prefix branches do
not slice `url`, so the whole raw string (marker included) flows into the
data/file handling; the `view-source:` branch slices the prefix off and
then requires a `"://"` split of the remainder. -/
def URL.init (raw : Str) : Except Err URL :=
  if ("data:".toList).isPrefixOf raw then
    URL.initRest (some ("data".toList)) raw false
  else if ("file:".toList).isPrefixOf raw then
    URL.initRest (some ("file".toList)) raw false
  else if ("view-source:".toList).isPrefixOf raw then
    match splitOnce ("://".toList) (raw.drop (("view-source:".toList).length)) with
    | some (sch, rest) => URL.initRest (some sch) rest true
    | none => .error .valueError
  else
    match splitOnce ("://".toList) raw with
    | some (sch, rest) => URL.initRest (some sch) rest false
    | none => URL.initRest none raw false

/-- A connected socket: the peer it was `connect`ed to and the bytes the
server will deliver on it.  Requests written to the socket are recorded in
the trace that `HttpClient.fetch` returns; the server's bytes are supplied
up front by the network oracle, the usual deterministic abstraction of a
scripted exchange. -/
structure Conn where
  host : Str
  port : Option Int
  stream : ByteStream
deriving DecidableEq, Repr

/-- The mutable state of an `HttpClient` object (lines 65-74): its current
`url` and its `socket` (`None` until the first fetch connects). -/
structure HttpClient where
  url : URL
  socket : Option Conn
deriving DecidableEq, Repr

/-- One request written to a socket: the peer the socket is connected to
and the request bytes. -/
structure SentReq where
  host : Str
  port : Option Int
  req : Str
deriving DecidableEq, Repr

/-- A network oracle: the byte stream served on a fresh connection to a
given host and port. -/
abbrev Net := Str → Int → ByteStream

/-- `HttpClient._build_request` (lines 90-97). -/
def HttpClient.build_request (u : URL) : Str :=
  ("GET ".toList) ++ u.path ++ (" HTTP/1.1\r\nHost: ".toList) ++ u.host ++
    ("\r\nUser-Agent: DannyTestBrowser/0.1\r\nConnection: keep-alive\r\n\r\n".toList)

/-- `HttpClient._parse_status_line` (lines 99-103): read a line, strip it,
split on the first two spaces into exactly three fields (fewer is a
`ValueError` from tuple unpacking), strip the reason. -/
def HttpClient.parse_status_line (s : ByteStream) : Except Err (Str × Str × Str × ByteStream) :=
  let p := readLine s
  match splitCharN ' ' 2 (pyStrip p.1) with
  | [version, status, explanation] => .ok (version, status, pyStrip explanation, p.2)
  | _ => .error .valueError

/-- The header loop of `HttpClient._parse_headers` (lines 105-114), with
fuel: read a line; `"\r\n"` ends the block; otherwise split on the first
colon (none is a `ValueError`), casefold the name, strip the value, store
with dict overwrite semantics.  At end-of-input `readline` yields `""`,
which has no colon, so the Python loop raises rather than spinning; fuel
`length + 1` therefore never runs out. -/
def parseHeadersCore : Nat → Headers → ByteStream → Except Err (Headers × ByteStream)
  | 0, _, _ => .error .outOfFuel
  | fuel + 1, acc, s =>
    let p := readLine s
    if p.1 = ['\r', '\n'] then .ok (acc, p.2)
    else
      match splitCharN ':' 1 p.1 with
      | [k, v] => parseHeadersCore fuel (dictInsert (lowerStr k) (pyStrip v) acc) p.2
      | _ => .error .valueError

/-- `HttpClient._parse_headers` (lines 105-114). -/
def HttpClient.parse_headers (s : ByteStream) : Except Err (Headers × ByteStream) :=
  parseHeadersCore (s.length + 1) [] s

/-- The chunk loop of `HttpClient._read_chunked_body` (lines 130-144), with
fuel: read a size line, parse it as hex (`int('', 16)` at end-of-input is a
`ValueError`, so the Python loop cannot spin there), stop on size zero
without consuming anything further, otherwise read exactly `size` bytes,
consume the line after the chunk, and continue.  Each pass consumes at
least the size line, so fuel `length + 1` never runs out. -/
def readChunkedCore : Nat → ByteStream → (Except Err Str) × ByteStream
  | 0, s => (.error .outOfFuel, s)
  | fuel + 1, s =>
    let p := readLine s
    match pyIntBase 16 (pyStrip p.1) with
    | none => (.error .valueError, p.2)
    | some size =>
      if size = 0 then (.ok [], p.2)
      else
        let q := readN size p.2
        let r := readLine q.2
        match readChunkedCore fuel r.2 with
        | (.ok more, s') => (.ok (q.1 ++ more), s')
        | (.error e, s') => (.error e, s')

/-- `HttpClient._read_chunked_body` (lines 130-144). -/
def HttpClient.read_chunked_body (s : ByteStream) : (Except Err Str) × ByteStream :=
  readChunkedCore (s.length + 1) s

/-- `HttpClient._read_body` (lines 116-128): `transfer-encoding` first,
then `content-length`, else the `ValueError` the spec calls
`MissingFramingError`.  The second component is the stream position
afterwards; on the missing-framing error nothing has been read. -/
def HttpClient.read_body (headers : Headers) (s : ByteStream) : (Except Err Str) × ByteStream :=
  if dictHasKey ("transfer-encoding".toList) headers then
    HttpClient.read_chunked_body s
  else if dictHasKey ("content-length".toList) headers then
    match dictGet ("content-length".toList) headers with
    | some v =>
      match pyIntBase 10 v with
      | some n =>
        let q := readN n s
        (.ok q.1, q.2)
      | none => (.error .valueError, s)
    | none => (.error .valueError, s)
  else
    (.error .missingFraming, s)

/-- The socket-acquisition step at the top of `HttpClient.fetch`
(lines 149-154): connect only when `self.socket is None`; connecting with
`port = None` cannot happen for http/https URLs (modelled as an error). -/
def HttpClient.acquireSocket (net : Net) (c : HttpClient) : Except Err HttpClient :=
  match c.socket with
  | some _ => .ok c
  | none =>
    match c.url.port with
    | some p => .ok { c with socket := some ⟨c.url.host, some p, net c.url.host p⟩ }
    | none => .error .valueError

/-- `HttpClient.fetch` (lines 146-201), with fuel for the unbounded
redirect recursion of line 196.  Returns the result (`.ok body` or the
Python exception), the client object afterwards, and the trace of requests
written, each tagged with the peer of the socket it was written to.
Mirrors the source order: acquire socket, send request, parse status line,
parse headers, `assert "content-encoding" not in headers`, on 301/302
resolve `location` (`scheme://host` prefix when it starts with `/`), build
a new `URL`, and recurse with the same socket and the first response's
body still unread; otherwise read the body and keep the connection. -/
def HttpClient.fetch (net : Net) : Nat → HttpClient → (Except Err Str) × HttpClient × List SentReq
  | 0, c => (.error .outOfFuel, c, [])
  | fuel + 1, c =>
    match HttpClient.acquireSocket net c with
    | .error e => (.error e, c, [])
    | .ok c1 =>
      match c1.socket with
      | none => (.error .valueError, c1, [])
      | some conn =>
        let sent : SentReq := ⟨conn.host, conn.port, HttpClient.build_request c1.url⟩
        match HttpClient.parse_status_line conn.stream with
        | .error e => (.error e, c1, [sent])
        | .ok (_version, status, _explanation, s1) =>
          match HttpClient.parse_headers s1 with
          | .error e => (.error e, c1, [sent])
          | .ok (headers, s2) =>
            if dictHasKey ("content-encoding".toList) headers then
              (.error .assertionError, c1, [sent])
            else if status = "301".toList ∨ status = "302".toList then
              match dictGet ("location".toList) headers with
              | none => (.error .attributeError, c1, [sent])
              | some loc =>
                let loc1 :=
                  if (['/'] : Str).isPrefixOf loc then
                    c1.url.scheme ++ ("://".toList) ++ c1.url.host ++ loc
                  else loc
                match URL.init loc1 with
                | .error e => (.error e, c1, [sent])
                | .ok u2 =>
                  let r := HttpClient.fetch net fuel ⟨u2, some { conn with stream := s2 }⟩
                  (r.1, r.2.1, sent :: r.2.2)
            else
              match HttpClient.read_body headers s2 with
              | (.ok body, s3) =>
                (.ok body, { c1 with socket := some { conn with stream := s3 } }, [sent])
              | (.error e, s3) =>
                (.error e, { c1 with socket := some { conn with stream := s3 } }, [sent])

/-- A `Browser` instance.  The class body of `Browser` (line 289) binds
`clients` once, at class level; instances are created bare (`Browser()`,
there is no `__init__`) and the source never assigns `self.clients`, only
mutates the dict it refers to, so Python attribute lookup always falls
back to the class attribute.  `clientsAttr` models an instance-level
`clients` attribute; in this program it is always `none`. -/
structure BrowserObj where
  clientsAttr : Option Nat
deriving DecidableEq, Repr

/-- Process-wide mutable state: a heap of dict objects, a heap of
`HttpClient` objects (both addressed by allocation index), and the next
free client index. -/
structure PState where
  dictHeap : Nat → Dict Nat
  clientHeap : Nat → HttpClient
  nextRef : Nat

/-- The heap address of the single dict created by the class-level
`clients: dict[str, HttpClient] = {}` (line 289). -/
def Browser.clients : Nat := 0

/-- Python attribute lookup for `self.clients`: the instance attribute if
one exists, else the class attribute. -/
def BrowserObj.clientsRef (b : BrowserObj) : Nat :=
  b.clientsAttr.getD Browser.clients

/-- Decimal rendering of a `Nat`, as an f-string does. -/
def natToStr (n : Nat) : Str := Nat.toDigits 10 n

/-- Decimal rendering of an `Int`, as an f-string does. -/
def intToStr (i : Int) : Str :=
  if i < 0 then '-' :: natToStr (-i).toNat else natToStr i.toNat

/-- f-string rendering of `url.port`, which is `None` for file/data URLs. -/
def portToStr : Option Int → Str
  | none => "None".toList
  | some i => intToStr i

/-- The cache key `f"{url.host}:{url.port}"` (line 293). -/
def clientKey (u : URL) : Str := u.host ++ ':' :: portToStr u.port

/-- `Browser._get_client` (lines 291-299): look the key up in the dict
`self.clients` refers to; on a hit, mutate the cached client's `url` and
return it; on a miss, allocate `HttpClient(url)` (whose `socket` starts as
`None`), append it to the dict, and return it.  Returns the heap index of
the client object, which stands for Python object identity. -/
def Browser.get_client (b : BrowserObj) (url : URL) (st : PState) : Nat × PState :=
  let key := clientKey url
  let r := b.clientsRef
  let d := st.dictHeap r
  match dictGet key d with
  | some cid =>
    (cid,
     { st with
        clientHeap := fun i => if i = cid then { st.clientHeap i with url := url } else st.clientHeap i })
  | none =>
    let cid := st.nextRef
    (cid,
     { dictHeap := fun q => if q = r then d ++ [(key, cid)] else st.dictHeap q,
       clientHeap := fun i => if i = cid then ⟨url, none⟩ else st.clientHeap i,
       nextRef := st.nextRef + 1 })

/-- `Browser.load` (lines 301-321): parse the URL; data and file URLs are
handled by renderers that never touch the client cache (their printing and
local-file I/O are outside the core and modelled as no-ops on the process
state); otherwise fetch through the cached per-host client and write the
mutated client object back to its heap cell.  Rendering of the body is
likewise outside the core.  `fuel` bounds the redirect recursion inside
`fetch` only. -/
def Browser.load (net : Net) (fuel : Nat) (b : BrowserObj) (raw : Str) (st : PState) :
    Except Err Unit × PState :=
  match URL.init raw with
  | .error e => (.error e, st)
  | .ok url =>
    if url.scheme = "data".toList then (.ok (), st)
    else if url.scheme = "file".toList then (.ok (), st)
    else
      let p := Browser.get_client b url st
      let r := HttpClient.fetch net fuel (p.2.clientHeap p.1)
      let st2 :=
        { p.2 with
            clientHeap := fun i => if i = p.1 then r.2.1 else p.2.clientHeap i }
      match r.1 with
      | .error e => (.error e, st2)
      | .ok _body => (.ok (), st2)

/-- A network oracle that serves nothing; the exchanges below start from an
already-connected socket, so it is never consulted. -/
def net0 : Net := fun _ _ => []

/-- The parse of `http://a.com/old`. -/
def urlOld : URL := ⟨"http".toList, "a.com".toList, some 80, "/old".toList, false⟩

/-- The parse of `http://a.com/new`. -/
def urlNew : URL := ⟨"http".toList, "a.com".toList, some 80, "/new".toList, false⟩

/-- The parse of `http://b.com/x`. -/
def urlBx : URL := ⟨"http".toList, "b.com".toList, some 80, "/x".toList, false⟩

/-- A 302 response head with `Location: /new` and no body bytes on the
wire, followed by `tail`.  Written with the line split that `readLine`
produces so general lemmas apply for any `tail`. -/
def head302 (tail : ByteStream) : ByteStream :=
  ("HTTP/1.1 302 Found\r".toList) ++
    '\n' :: ((("Location".toList) ++ ':' :: ((' ' :: "/new".toList) ++ ['\r'])) ++
      '\n' :: ('\r' :: '\n' :: tail))

/-- A 301 response head with an absolute `Location: http://b.com/x` naming
a different host, no body bytes on the wire, followed by `tail`. -/
def head301b (tail : ByteStream) : ByteStream :=
  ("HTTP/1.1 301 Moved Permanently\r".toList) ++
    '\n' :: ((("Location".toList) ++ ':' :: ((' ' :: "http://b.com/x".toList) ++ ['\r'])) ++
      '\n' :: ('\r' :: '\n' :: tail))

/-- A 200 response whose only header is `content-length: cl`, with `body`
then `tail` on the wire after the blank line. -/
def resp200cl (cl body tail : ByteStream) : ByteStream :=
  ("HTTP/1.1 200 OK\r".toList) ++
    '\n' :: ((("content-length".toList) ++ ':' :: ((' ' :: cl) ++ ['\r'])) ++
      '\n' :: ('\r' :: '\n' :: (body ++ tail)))

/-- A 302 response head that redirects back to `/old`, for the unbounded
redirect loop. -/
def headLoop (tail : ByteStream) : ByteStream :=
  ("HTTP/1.1 302 Found\r".toList) ++
    '\n' :: ((("Location".toList) ++ ':' :: ((' ' :: "/old".toList) ++ ['\r'])) ++
      '\n' :: ('\r' :: '\n' :: tail))

/-- `n` consecutive redirect-to-`/old` responses on one connection. -/
def loopStream : Nat → ByteStream
  | 0 => []
  | n + 1 => headLoop (loopStream n)

/-! ### Lemmas about the stream primitives -/

theorem readLine_append (a : Str) (b : ByteStream) (h : '\n' ∉ a) :
    readLine (a ++ '\n' :: b) = (a ++ ['\n'], b) := by
  induction a with
  | nil => simp [readLine]
  | cons c cs ih =>
    have hc : c ≠ '\n' := fun hc => h (hc ▸ List.mem_cons_self c cs)
    have hcs : '\n' ∉ cs := fun hm => h (List.mem_cons_of_mem c hm)
    simp [readLine, hc, ih hcs]

theorem readLine_snd_le (s : ByteStream) : (readLine s).2.length ≤ s.length := by
  induction s with
  | nil => simp [readLine]
  | cons c cs ih =>
    by_cases hc : c = '\n' <;> simp [readLine, hc] <;> omega

theorem readLine_snd_lt (s : ByteStream) (h : s ≠ []) : (readLine s).2.length < s.length := by
  match s with
  | c :: cs =>
    by_cases hc : c = '\n'
    · simp [readLine, hc]
    · have := readLine_snd_le cs
      simp [readLine, hc]
      omega

theorem readN_snd_le (n : Int) (s : ByteStream) : (readN n s).2.length ≤ s.length := by
  by_cases hn : n < 0 <;> simp [readN, hn]

theorem splitCharN_zero (sep : Char) (b : Str) : splitCharN sep 0 b = [b] := by
  cases b <;> simp [splitCharN]

theorem splitCharN_first (sep : Char) (a b : Str) (h : sep ∉ a) :
    splitCharN sep 1 (a ++ sep :: b) = [a, b] := by
  induction a with
  | nil => simp [splitCharN, splitCharN_zero]
  | cons c cs ih =>
    have hc : c ≠ sep := fun hc => h (hc ▸ List.mem_cons_self c cs)
    have hcs : sep ∉ cs := fun hm => h (List.mem_cons_of_mem c hm)
    simp [splitCharN, hc, ih hcs]

theorem parseHeadersCore_fuel (f g : Nat) (acc : Headers) (s : ByteStream)
    (hf : s.length < f) (hg : s.length < g) :
    parseHeadersCore f acc s = parseHeadersCore g acc s := by
  induction f generalizing g acc s with
  | zero => omega
  | succ f ih =>
    match g, hg with
    | g + 1, _ =>
      simp only [parseHeadersCore]
      set p := readLine s with hp
      by_cases hcr : p.1 = ['\r', '\n']
      · simp [hcr]
      · simp only [hcr, if_false]
        match hsplit : splitCharN ':' 1 p.1 with
        | [k, v] =>
          have hs : s ≠ [] := by
            intro hnil
            rw [hnil] at hp
            simp [readLine] at hp
            rw [hp] at hsplit
            simp [splitCharN] at hsplit
          have hlt := readLine_snd_lt s hs
          rw [← hp] at hlt
          exact ih _ _ _ (by omega) (by omega)
        | [] => rfl
        | [x] => rfl
        | x :: y :: z :: t => rfl

theorem readChunkedCore_fuel (f g : Nat) (s : ByteStream)
    (hf : s.length < f) (hg : s.length < g) :
    readChunkedCore f s = readChunkedCore g s := by
  induction f generalizing g s with
  | zero => omega
  | succ f ih =>
    match g, hg with
    | g + 1, _ =>
      simp only [readChunkedCore]
      set p := readLine s with hp
      match hint : pyIntBase 16 (pyStrip p.1) with
      | none => rfl
      | some size =>
        by_cases hz : size = 0
        · simp [hz]
        · simp only [hz, if_false]
          have hs : s ≠ [] := by
            intro hnil
            rw [hnil] at hp
            simp [readLine] at hp
            rw [hp] at hint
            simp [pyStrip, pyIntBase, pyIntDigits] at hint
          have h1 := readLine_snd_lt s hs
          rw [← hp] at h1
          have h2 := readN_snd_le size p.2
          have h3 := readLine_snd_le (readN size p.2).2
          rw [ih g ((readLine (readN size p.2).2).2) (by omega) (by omega)]

theorem parseHeadersCore_crlf (f : Nat) (acc : Headers) (b : ByteStream) :
    parseHeadersCore (f + 1) acc ('\r' :: '\n' :: b) = .ok (acc, b) := by
  simp [parseHeadersCore, readLine]

theorem parseHeadersCore_header (f : Nat) (acc : Headers) (k v : Str) (b : ByteStream)
    (hk : '\n' ∉ k) (hc : ':' ∉ k) (hv : '\n' ∉ v) :
    parseHeadersCore (f + 1) acc ((k ++ ':' :: (v ++ ['\r'])) ++ '\n' :: b) =
      parseHeadersCore f (dictInsert (lowerStr k) (pyStrip (v ++ ['\r', '\n'])) acc) b := by
  have hline : '\n' ∉ (k ++ ':' :: (v ++ ['\r'])) := by
    simp [List.mem_append, List.mem_cons, hk, hv]
  have hne : k ++ ':' :: (v ++ ['\r', '\n']) ≠ ['\r', '\n'] := by
    intro hcontra
    have := congrArg List.length hcontra
    simp at this
    omega
  have hassoc : (k ++ ':' :: (v ++ ['\r'])) ++ ['\n'] = k ++ ':' :: (v ++ ['\r', '\n']) := by
    simp
  simp only [parseHeadersCore, readLine_append _ _ hline, hne, if_false, hassoc,
    splitCharN_first ':' k (v ++ ['\r', '\n']) hc]

theorem parse_headers_single (k v : Str) (b : ByteStream)
    (hk : '\n' ∉ k) (hc : ':' ∉ k) (hv : '\n' ∉ v) :
    HttpClient.parse_headers ((k ++ ':' :: (v ++ ['\r'])) ++ '\n' :: ('\r' :: '\n' :: b)) =
      .ok ([(lowerStr k, pyStrip (v ++ ['\r', '\n']))], b) := by
  unfold HttpClient.parse_headers
  rw [parseHeadersCore_header _ _ k v _ hk hc hv]
  rw [parseHeadersCore_fuel _ (b.length + 2 + 1) _ _
    (by simp only [List.length_append, List.length_cons]; omega)
    (by simp only [List.length_cons]; omega)]
  rw [parseHeadersCore_crlf]
  simp [dictInsert]

theorem parse_status_line_append (a : Str) (b : ByteStream) (h : '\n' ∉ a) :
    HttpClient.parse_status_line (a ++ '\n' :: b) =
      (match splitCharN ' ' 2 (pyStrip (a ++ ['\n'])) with
       | [version, status, explanation] => .ok (version, status, pyStrip explanation, b)
       | _ => .error .valueError) := by
  unfold HttpClient.parse_status_line
  rw [readLine_append a b h]

theorem isPrefixOf_append_self (l r : Str) : l.isPrefixOf (l ++ r) = true :=
  List.isPrefixOf_iff_prefix.mpr (List.prefix_append l r)

theorem data_not_prefix_of_file (rest : Str) :
    ("data:".toList).isPrefixOf (("file:".toList) ++ rest) = false := by
  simp [show (("file:".toList) ++ rest) = 'f' :: ("ile:".toList ++ rest) from rfl,
    show ("data:".toList) = 'd' :: "ata:".toList from rfl, List.isPrefixOf_cons₂]

theorem data_not_prefix_of_vs (r : Str) :
    ("data:".toList).isPrefixOf (("view-source:".toList) ++ r) = false := by
  simp [show (("view-source:".toList) ++ r) = 'v' :: ("iew-source:".toList ++ r) from rfl,
    show ("data:".toList) = 'd' :: "ata:".toList from rfl, List.isPrefixOf_cons₂]

theorem file_not_prefix_of_vs (r : Str) :
    ("file:".toList).isPrefixOf (("view-source:".toList) ++ r) = false := by
  simp [show (("view-source:".toList) ++ r) = 'v' :: ("iew-source:".toList ++ r) from rfl,
    show ("file:".toList) = 'f' :: "ile:".toList from rfl, List.isPrefixOf_cons₂]

/-- Re-attaching the view-source flag commutes with the rest of
`URL.__init__`: the tail of the constructor runs identically for both flag
values, the flag only being stored in the resulting record. -/
theorem initRest_vs (so : Option Str) (u : Str) :
    URL.initRest so u true =
      (URL.initRest so u false).map (fun x => { x with is_view_source := true }) := by
  unfold URL.initRest
  cases so with
  | none => rfl
  | some scheme =>
    by_cases h1 : supportedScheme scheme = true
    · simp only [h1, if_true]
      by_cases h2 : scheme = "data".toList
      · simp [h2, Except.map]
      · simp only [h2, if_false]
        by_cases h3 : scheme = "file".toList
        · simp [h3, Except.map]
        · simp only [h3, if_false]
          rcases hs : splitOnce (['/']) (if u.contains '/' then u else u ++ ['/']) with _ | ⟨host, rest⟩
          · simp [Except.map]
          · simp only []
            by_cases h4 : host.contains ':' = true
            · simp only [h4, if_true]
              rcases hs2 : splitOnce ([':']) host with _ | ⟨h, pstr⟩
              · simp [Except.map]
              · rcases hint : pyIntBase 10 pstr with _ | p <;> simp [hint, Except.map]
            · simp only [Bool.not_eq_true] at h4
              simp only [h4, Bool.false_eq_true, if_false]
              simp [Except.map]
    · simp [h1, Except.map]

/-- C7 counterexample: `URL.__init__` does not strip the `data:`/`file:`
marker.  Parsing `data:abc` stores the whole raw string `data:abc` — not
the post-marker remainder `abc` — and parsing `file:/tmp/x` stores
`file:/tmp/x`, not `/tmp/x`. -/
theorem c7_marker_not_stripped :
    URL.init ("data:abc".toList) =
      .ok ⟨"data".toList, [], none, "data:abc".toList, false⟩ ∧
    ("data:abc".toList) ≠ ("abc".toList) ∧
    URL.init ("file:/tmp/x".toList) =
      .ok ⟨"file".toList, [], none, "file:/tmp/x".toList, false⟩ ∧
    ("file:/tmp/x".toList) ≠ ("/tmp/x".toList) := by
  refine ⟨by decide, by decide, by decide, by decide⟩

/-- C7 amended: for every raw URL beginning with `data:` (resp. `file:`),
parsing yields scheme `data` (resp. `file`), empty host, no port, and a
payload that is the ENTIRE raw string, marker included, stored in `path`
(there is no separate `raw_payload` field). -/
theorem c7_data_file_verbatim (rest : Str) :
    URL.init (("data:".toList) ++ rest) =
      .ok ⟨"data".toList, [], none, ("data:".toList) ++ rest, false⟩ ∧
    URL.init (("file:".toList) ++ rest) =
      .ok ⟨"file".toList, [], none, ("file:".toList) ++ rest, false⟩ := by
  constructor
  · unfold URL.init
    rw [isPrefixOf_append_self]
    simp only [if_true]
    rfl
  · unfold URL.init
    rw [data_not_prefix_of_file, isPrefixOf_append_self]
    simp only [Bool.false_eq_true, if_false, if_true]
    rfl

/-- C8 counterexample: a `view-source:` remainder beginning with `data:`
is NOT parsed the way the remainder alone would be.  The `view-source:`
branch requires a `"://"` split of the remainder, so
`view-source:data:abc` raises `ValueError`, while `data:abc` alone parses
successfully. -/
theorem c8_vs_data_diverges :
    URL.init ("view-source:data:abc".toList) = .error .valueError ∧
    URL.init ("data:abc".toList) =
      .ok ⟨"data".toList, [], none, "data:abc".toList, false⟩ := by
  refine ⟨by decide, by decide⟩

/-- C8 amended: for a raw URL of the form `view-source:` ++ r, the code
strips the prefix and sets the flag, but then unconditionally splits the
remainder on `"://"` (a remainder without `"://"`, such as a `data:` or
`file:` URL, raises `ValueError` instead).  When r does contain `"://"`
and does not itself begin with `data:`, `file:` or `view-source:`, the
result equals parsing r alone with the view-source flag re-attached. -/
theorem c8_vs_parses_remainder (r sch rest : Str)
    (hd : ("data:".toList).isPrefixOf r = false)
    (hf : ("file:".toList).isPrefixOf r = false)
    (hv : ("view-source:".toList).isPrefixOf r = false)
    (hs : splitOnce ("://".toList) r = some (sch, rest)) :
    URL.init (("view-source:".toList) ++ r) =
      (URL.init r).map (fun u => { u with is_view_source := true }) := by
  unfold URL.init
  rw [data_not_prefix_of_vs, file_not_prefix_of_vs, isPrefixOf_append_self]
  rw [hd, hf, hv]
  simp only [Bool.false_eq_true, if_false, if_true]
  rw [List.drop_left, hs]
  exact initRest_vs (some sch) rest

/-- C3: a response with neither `transfer-encoding` nor `content-length`
makes `_read_body` raise the `ValueError` the spec calls
`MissingFramingError` — it neither reads indefinitely nor consumes any
body byte: the stream is returned exactly as it was. -/
theorem c3_missing_framing (headers : Headers) (s : ByteStream)
    (hte : dictHasKey ("transfer-encoding".toList) headers = false)
    (hcl : dictHasKey ("content-length".toList) headers = false) :
    HttpClient.read_body headers s = (.error .missingFraming, s) := by
  unfold HttpClient.read_body
  simp only [String.toList] at hte hcl
  simp [hte, hcl]

/-- Witness for C3 at concrete inputs: empty headers over the stream
`"hello"`. -/
theorem c3_missing_framing_witness :
    dictHasKey ("transfer-encoding".toList) ([] : Headers) = false ∧
    dictHasKey ("content-length".toList) ([] : Headers) = false ∧
    HttpClient.read_body [] ("hello".toList) = (.error .missingFraming, "hello".toList) :=
  ⟨by decide, by decide, c3_missing_framing [] ("hello".toList) (by decide) (by decide)⟩

/-- C4 counterexample: with neither framing header present, the body is
NOT read to end-of-input.  On the stream `"hello"` with empty headers the
code raises (`MissingFramingError`) instead of returning the remaining
bytes `"hello"` with the stream exhausted. -/
theorem c4_no_read_to_eof :
    HttpClient.read_body [] ("hello".toList) = (.error .missingFraming, "hello".toList) ∧
    HttpClient.read_body [] ("hello".toList) ≠ (.ok ("hello".toList), ([] : ByteStream)) := by
  refine ⟨by decide, by decide⟩

/-- C4 amended: for every response whose headers contain neither a
`transfer-encoding` key nor a `content-length` key, reading the body does
not read until end-of-input; it fails with `MissingFramingError` and
leaves the stream untouched (there is no read-to-EOF branch in the code). -/
theorem c4_missing_framing_instead_of_eof (headers : Headers) (s : ByteStream)
    (hte : dictHasKey ("transfer-encoding".toList) headers = false)
    (hcl : dictHasKey ("content-length".toList) headers = false) :
    (HttpClient.read_body headers s).1 = .error .missingFraming ∧
    (HttpClient.read_body headers s).2 = s := by
  unfold HttpClient.read_body
  simp only [String.toList] at hte hcl
  simp [hte, hcl]

/-- Witness for C4's amended theorem at concrete inputs. -/
theorem c4_missing_framing_instead_of_eof_witness :
    dictHasKey ("transfer-encoding".toList) ([] : Headers) = false ∧
    dictHasKey ("content-length".toList) ([] : Headers) = false ∧
    (HttpClient.read_body [] ("abc".toList)).1 = .error .missingFraming ∧
    (HttpClient.read_body [] ("abc".toList)).2 = "abc".toList :=
  ⟨by decide, by decide,
    (c4_missing_framing_instead_of_eof [] ("abc".toList) (by decide) (by decide)).1,
    (c4_missing_framing_instead_of_eof [] ("abc".toList) (by decide) (by decide)).2⟩

/-- C5: a `content-length: 5` response over the stream `"hello"` yields
body exactly `"hello"`; a `transfer-encoding` response over the chunked
stream `"5\r\nhello\r\n0\r\n\r\n"` decodes to exactly `"hello"`; and
whenever a `transfer-encoding` key is present, `_read_body` delegates to
the chunked decoder, so `transfer-encoding` takes priority over any
`content-length` key also present. -/
theorem c5_framing_round_trip (headers : Headers) (s : ByteStream)
    (hte : dictHasKey ("transfer-encoding".toList) headers = true) :
    HttpClient.read_body [("content-length".toList, "5".toList)] ("hello".toList) =
      (.ok ("hello".toList), []) ∧
    HttpClient.read_body [("transfer-encoding".toList, "chunked".toList)]
        ("5\r\nhello\r\n0\r\n\r\n".toList) =
      (.ok ("hello".toList), "\r\n".toList) ∧
    HttpClient.read_body headers s = HttpClient.read_chunked_body s := by
  refine ⟨by decide, by decide, ?_⟩
  unfold HttpClient.read_body
  simp only [String.toList] at hte
  simp [hte]

/-- Witness for C5 at concrete inputs: headers carrying BOTH keys, where
the chunked stream decodes to `"hello"` although `content-length` says 3 —
the `transfer-encoding` branch wins. -/
theorem c5_framing_round_trip_witness :
    dictHasKey ("transfer-encoding".toList)
      [("transfer-encoding".toList, "chunked".toList),
       ("content-length".toList, "3".toList)] = true ∧
    HttpClient.read_body
        [("transfer-encoding".toList, "chunked".toList),
         ("content-length".toList, "3".toList)]
        ("5\r\nhello\r\n0\r\n\r\n".toList) =
      (.ok ("hello".toList), "\r\n".toList) :=
  ⟨by decide,
    by
      rw [(c5_framing_round_trip
        [("transfer-encoding".toList, "chunked".toList),
         ("content-length".toList, "3".toList)]
        ("5\r\nhello\r\n0\r\n\r\n".toList) (by decide)).2.2]
      decide⟩

theorem readChunkedCore_zero (f : Nat) (a : Str) (b : ByteStream) (h : '\n' ∉ a)
    (h0 : pyIntBase 16 (pyStrip (a ++ ['\n'])) = some 0) :
    readChunkedCore (f + 1) (a ++ '\n' :: b) = (.ok [], b) := by
  simp only [readChunkedCore, readLine_append a b h, h0]
  simp

theorem readChunkedCore_chunk (f : Nat) (a : Str) (size : Int) (b : ByteStream) (h : '\n' ∉ a)
    (hsz : pyIntBase 16 (pyStrip (a ++ ['\n'])) = some size) (hnz : size ≠ 0) :
    readChunkedCore (f + 1) (a ++ '\n' :: b) =
      (match readChunkedCore f (readLine (readN size b).2).2 with
       | (.ok more, s') => (.ok ((readN size b).1 ++ more), s')
       | (.error e, s') => (.error e, s')) := by
  simp only [readChunkedCore, readLine_append a b h, hsz, hnz, if_false]

/-- C9: after decoding `5\r\nhello\r\n0\r\n` followed by the terminating
blank line `\r\n` and any further bytes, `_read_chunked_body` has consumed
the zero-size line but NOT the blank CRLF line after it: the stream is
left positioned at that `\r\n`, so a later read of a next response on the
same kept-alive stream would start at the leftover CRLF rather than at a
status line. -/
theorem c9_chunked_leaves_final_crlf (more : ByteStream) :
    HttpClient.read_chunked_body
        (("5\r".toList) ++ '\n' ::
          (("hello\r".toList) ++ '\n' :: (("0\r".toList) ++ '\n' :: ('\r' :: '\n' :: more)))) =
      (.ok ("hello".toList), '\r' :: '\n' :: more) := by
  unfold HttpClient.read_chunked_body
  rw [readChunkedCore_chunk _ ("5\r".toList) 5 _ (by decide) (by decide) (by decide)]
  rw [show (readLine (readN 5
        (("hello\r".toList) ++ '\n' :: (("0\r".toList) ++ '\n' :: ('\r' :: '\n' :: more)))).2).2 =
      ("0\r".toList) ++ '\n' :: ('\r' :: '\n' :: more) from rfl]
  rw [show (readN 5
        (("hello\r".toList) ++ '\n' :: (("0\r".toList) ++ '\n' :: ('\r' :: '\n' :: more)))).1 =
      "hello".toList from rfl]
  rw [readChunkedCore_fuel _ (((("0\r".toList) ++ '\n' :: ('\r' :: '\n' :: more))).length + 1) _
    (by simp only [List.length_append, List.length_cons]; simp; omega)
    (by omega)]
  rw [readChunkedCore_zero _ ("0\r".toList) _ (by decide) (by decide)]
  simp

/-- One request/response exchange of `fetch` on an already-connected
socket, for a response whose head is one status line and exactly one
header line: the continuation after status-line and header parsing,
written out.  This is the workhorse for the redirect claims. -/
theorem fetch_single_header_exchange (net : Net) (fuel : Nat) (u : URL) (host : Str)
    (port : Option Int) (a k v : Str) (rest : ByteStream) (ver status reason : Str)
    (ha : '\n' ∉ a) (hk : '\n' ∉ k) (hc : ':' ∉ k) (hv : '\n' ∉ v)
    (hsl : splitCharN ' ' 2 (pyStrip (a ++ ['\n'])) = [ver, status, reason]) :
    HttpClient.fetch net (fuel + 1)
        ⟨u, some ⟨host, port, a ++ '\n' :: ((k ++ ':' :: (v ++ ['\r'])) ++ '\n' :: ('\r' :: '\n' :: rest))⟩⟩ =
      (let conn : Conn :=
        ⟨host, port, a ++ '\n' :: ((k ++ ':' :: (v ++ ['\r'])) ++ '\n' :: ('\r' :: '\n' :: rest))⟩
       let c1 : HttpClient := ⟨u, some conn⟩
       let headers : Headers := [(lowerStr k, pyStrip (v ++ ['\r', '\n']))]
       let sent : SentReq := ⟨host, port, HttpClient.build_request u⟩
       if dictHasKey ("content-encoding".toList) headers then (.error .assertionError, c1, [sent])
       else if status = "301".toList ∨ status = "302".toList then
         match dictGet ("location".toList) headers with
         | none => (.error .attributeError, c1, [sent])
         | some loc =>
           match URL.init (if (['/'] : Str).isPrefixOf loc then
               u.scheme ++ ("://".toList) ++ u.host ++ loc else loc) with
           | .error e => (.error e, c1, [sent])
           | .ok u2 =>
             let r := HttpClient.fetch net fuel ⟨u2, some ⟨host, port, rest⟩⟩
             (r.1, r.2.1, sent :: r.2.2)
       else
         match HttpClient.read_body headers rest with
         | (.ok body, s3) => (.ok body, ⟨u, some ⟨host, port, s3⟩⟩, [sent])
         | (.error e, s3) => (.error e, ⟨u, some ⟨host, port, s3⟩⟩, [sent])) := by
  have h1 : HttpClient.parse_status_line
      (a ++ '\n' :: ((k ++ ':' :: (v ++ ['\r'])) ++ '\n' :: ('\r' :: '\n' :: rest))) =
      .ok (ver, status, pyStrip reason,
        (k ++ ':' :: (v ++ ['\r'])) ++ '\n' :: ('\r' :: '\n' :: rest)) := by
    rw [parse_status_line_append a _ ha, hsl]
  have h2 : HttpClient.parse_headers ((k ++ ':' :: (v ++ ['\r'])) ++ '\n' :: ('\r' :: '\n' :: rest)) =
      .ok ([(lowerStr k, pyStrip (v ++ ['\r', '\n']))], rest) :=
    parse_headers_single k v rest hk hc hv
  simp only [HttpClient.fetch, HttpClient.acquireSocket, h1, h2]

/-- `read(content-length)` returns exactly the declared bytes. -/
theorem readN_exact (body tail : Str) : readN ((body.length : Int)) (body ++ tail) = (body, tail) := by
  unfold readN
  rw [if_neg (by omega), Int.toNat_ofNat, List.take_left, List.drop_left]

theorem read_body_cl (cl body tail : Str)
    (hv : pyIntBase 10 (pyStrip (' ' :: (cl ++ ['\r', '\n']))) = some ((body.length : Int))) :
    HttpClient.read_body [("content-length".toList, pyStrip (' ' :: (cl ++ ['\r', '\n'])))]
        (body ++ tail) = (.ok body, tail) := by
  have h1 : HttpClient.read_body
      [("content-length".toList, pyStrip (' ' :: (cl ++ ['\r', '\n'])))] (body ++ tail) =
      (match pyIntBase 10 (pyStrip (' ' :: (cl ++ ['\r', '\n']))) with
       | some n => (Except.ok (readN n (body ++ tail)).1, (readN n (body ++ tail)).2)
       | none => (.error .valueError, body ++ tail)) := rfl
  rw [h1]
  simp only [hv, readN_exact]

/-- C1: on a fetch whose response is a 302 head with `Location: /new`
(and no body bytes on the wire, as the spec's redirect scenario states)
received for `http://a.com/old`, `fetch` issues a second GET request for
the resolved URL `http://a.com/new` on the same host's connection and
returns the second response's body `body` to the caller — not the first
response's (empty) body.  The trace records both requests; the second is
`GET /new` built from the resolved URL. -/
theorem c1_redirect_follows (cl body tail : Str)
    (hn : '\n' ∉ cl)
    (hv : pyIntBase 10 (pyStrip (' ' :: (cl ++ ['\r', '\n']))) = some ((body.length : Int))) :
    HttpClient.fetch net0 2
        ⟨urlOld, some ⟨"a.com".toList, some 80, head302 (resp200cl cl body tail)⟩⟩ =
      (.ok body,
       ⟨urlNew, some ⟨"a.com".toList, some 80, tail⟩⟩,
       [⟨"a.com".toList, some 80, HttpClient.build_request urlOld⟩,
        ⟨"a.com".toList, some 80, HttpClient.build_request urlNew⟩]) := by
  rw [show (2 : Nat) = 1 + 1 from rfl]
  simp only [head302]
  rw [fetch_single_header_exchange net0 1 urlOld ("a.com".toList) (some 80)
    ("HTTP/1.1 302 Found\r".toList) ("Location".toList) (' ' :: "/new".toList)
    (resp200cl cl body tail) ("HTTP/1.1".toList) ("302".toList) ("Found".toList)
    (by decide) (by decide) (by decide) (by decide) (by decide)]
  simp only [show lowerStr ("Location".toList) = "location".toList from by decide,
    show pyStrip ((' ' :: "/new".toList) ++ ['\r', '\n']) = "/new".toList from by decide,
    show dictHasKey ("content-encoding".toList) [("location".toList, "/new".toList)] = false from rfl,
    Bool.false_eq_true, if_false, or_true, if_true,
    show dictGet ("location".toList) [("location".toList, "/new".toList)] =
      some ("/new".toList) from rfl,
    show URL.init (if (['/'] : Str).isPrefixOf ("/new".toList) = true then
      urlOld.scheme ++ "://".toList ++ urlOld.host ++ "/new".toList else "/new".toList) =
      .ok urlNew from by decide]
  rw [show (1 : Nat) = 0 + 1 from rfl]
  simp only [resp200cl]
  rw [fetch_single_header_exchange net0 0 urlNew ("a.com".toList) (some 80)
    ("HTTP/1.1 200 OK\r".toList) ("content-length".toList) (' ' :: cl)
    (body ++ tail) ("HTTP/1.1".toList) ("200".toList) ("OK".toList)
    (by decide) (by decide) (by decide) (by simp [hn]) (by decide)]
  simp only [show lowerStr ("content-length".toList) = "content-length".toList from by decide,
    List.cons_append,
    show dictHasKey ("content-encoding".toList)
      [("content-length".toList, pyStrip (' ' :: (cl ++ ['\r', '\n'])))] = false from rfl,
    Bool.false_eq_true, if_false,
    show (("200".toList = "301".toList ∨ "200".toList = "302".toList)) = False from by decide,
    read_body_cl cl body tail hv]

/-- Witness for C1 with `content-length: 5` and body `hello`. -/
theorem c1_redirect_follows_witness :
    ('\n' ∉ ("5".toList)) ∧
    pyIntBase 10 (pyStrip (' ' :: (("5".toList) ++ ['\r', '\n']))) =
      some ((("hello".toList).length : Int)) ∧
    HttpClient.fetch net0 2
        ⟨urlOld, some ⟨"a.com".toList, some 80,
          head302 (resp200cl ("5".toList) ("hello".toList) [])⟩⟩ =
      (.ok ("hello".toList),
       ⟨urlNew, some ⟨"a.com".toList, some 80, []⟩⟩,
       [⟨"a.com".toList, some 80, HttpClient.build_request urlOld⟩,
        ⟨"a.com".toList, some 80, HttpClient.build_request urlNew⟩]) :=
  ⟨by decide, by decide,
    c1_redirect_follows ("5".toList) ("hello".toList) [] (by decide) (by decide)⟩

/-- C2 counterexample: a 301 response for `http://a.com/old` whose
`Location: http://b.com/x` names a DIFFERENT host.  The code reuses
`self.socket` unchanged (`fetch` connects only when `self.socket is
None`), so the restarted request is written to the connection to
`a.com:80` — both entries of the trace name `a.com`, no connection to
`b.com` is ever acquired (the network oracle is never consulted), and the
body returned is whatever the old host's socket delivers next.  This
refutes the claim that the next request is not sent on the old host's
connection. -/
theorem c2_cross_host_redirect_on_old_conn :
    HttpClient.fetch net0 2
        ⟨urlOld, some ⟨"a.com".toList, some 80,
          head301b (resp200cl ("2".toList) ("hi".toList) [])⟩⟩ =
      (.ok ("hi".toList),
       ⟨urlBx, some ⟨"a.com".toList, some 80, []⟩⟩,
       [⟨"a.com".toList, some 80, HttpClient.build_request urlOld⟩,
        ⟨"a.com".toList, some 80, HttpClient.build_request urlBx⟩]) ∧
    urlBx.host = "b.com".toList ∧
    ("b.com".toList) ≠ ("a.com".toList) := by
  refine ⟨by decide, by decide, by decide⟩

/-- C2 amended: on a 301/302 the client resolves the `Location` header
against the current URL (prefixing `scheme://host` when it starts with
`/`, otherwise using it as already absolute), constructs a new `URL`, and
restarts the exchange on its EXISTING socket — `fetch` acquires a
connection only when it has none, so even when the resolved location
names a different host:port the next request is sent on the old host's
connection, as the trace shows. -/
theorem c2_redirect_reuses_old_socket (cl body tail : Str)
    (hn : '\n' ∉ cl)
    (hv : pyIntBase 10 (pyStrip (' ' :: (cl ++ ['\r', '\n']))) = some ((body.length : Int))) :
    HttpClient.fetch net0 2
        ⟨urlOld, some ⟨"a.com".toList, some 80, head301b (resp200cl cl body tail)⟩⟩ =
      (.ok body,
       ⟨urlBx, some ⟨"a.com".toList, some 80, tail⟩⟩,
       [⟨"a.com".toList, some 80, HttpClient.build_request urlOld⟩,
        ⟨"a.com".toList, some 80, HttpClient.build_request urlBx⟩]) ∧
    urlBx.host ≠ urlOld.host := by
  refine ⟨?_, by decide⟩
  rw [show (2 : Nat) = 1 + 1 from rfl]
  simp only [head301b]
  rw [fetch_single_header_exchange net0 1 urlOld ("a.com".toList) (some 80)
    ("HTTP/1.1 301 Moved Permanently\r".toList) ("Location".toList)
    (' ' :: "http://b.com/x".toList) (resp200cl cl body tail)
    ("HTTP/1.1".toList) ("301".toList) ("Moved Permanently".toList)
    (by decide) (by decide) (by decide) (by decide) (by decide)]
  simp only [show lowerStr ("Location".toList) = "location".toList from by decide,
    show pyStrip ((' ' :: "http://b.com/x".toList) ++ ['\r', '\n']) =
      "http://b.com/x".toList from by decide,
    show dictHasKey ("content-encoding".toList)
      [("location".toList, "http://b.com/x".toList)] = false from rfl,
    Bool.false_eq_true, if_false,
    eq_self_iff_true, true_or, if_true,
    show dictGet ("location".toList) [("location".toList, "http://b.com/x".toList)] =
      some ("http://b.com/x".toList) from rfl,
    show URL.init (if (['/'] : Str).isPrefixOf ("http://b.com/x".toList) = true then
      urlOld.scheme ++ "://".toList ++ urlOld.host ++ "http://b.com/x".toList
      else "http://b.com/x".toList) = .ok urlBx from by decide]
  rw [show (1 : Nat) = 0 + 1 from rfl]
  simp only [resp200cl]
  rw [fetch_single_header_exchange net0 0 urlBx ("a.com".toList) (some 80)
    ("HTTP/1.1 200 OK\r".toList) ("content-length".toList) (' ' :: cl)
    (body ++ tail) ("HTTP/1.1".toList) ("200".toList) ("OK".toList)
    (by decide) (by decide) (by decide) (by simp [hn]) (by decide)]
  simp only [show lowerStr ("content-length".toList) = "content-length".toList from by decide,
    List.cons_append,
    show dictHasKey ("content-encoding".toList)
      [("content-length".toList, pyStrip (' ' :: (cl ++ ['\r', '\n'])))] = false from rfl,
    Bool.false_eq_true, if_false,
    show (("200".toList = "301".toList ∨ "200".toList = "302".toList)) = False from by decide,
    read_body_cl cl body tail hv]

/-- Witness for C2's amended theorem with `content-length: 2`, body `hi`. -/
theorem c2_redirect_reuses_old_socket_witness :
    ('\n' ∉ ("2".toList)) ∧
    pyIntBase 10 (pyStrip (' ' :: (("2".toList) ++ ['\r', '\n']))) =
      some ((("hi".toList).length : Int)) ∧
    (HttpClient.fetch net0 2
        ⟨urlOld, some ⟨"a.com".toList, some 80,
          head301b (resp200cl ("2".toList) ("hi".toList) [])⟩⟩ =
      (.ok ("hi".toList),
       ⟨urlBx, some ⟨"a.com".toList, some 80, []⟩⟩,
       [⟨"a.com".toList, some 80, HttpClient.build_request urlOld⟩,
        ⟨"a.com".toList, some 80, HttpClient.build_request urlBx⟩]) ∧
     urlBx.host ≠ urlOld.host) :=
  ⟨by decide, by decide,
    c2_redirect_reuses_old_socket ("2".toList) ("hi".toList) [] (by decide) (by decide)⟩

/-- One hop of the infinite redirect loop: a 302 head redirecting back to
`/old` makes `fetch` burn one unit of fuel, record one request, and
re-enter itself with the same URL on the same connection. -/
theorem fetch_loop_step (n : Nat) (t : ByteStream) :
    HttpClient.fetch net0 (n + 1) ⟨urlOld, some ⟨"a.com".toList, some 80, headLoop t⟩⟩ =
      ((HttpClient.fetch net0 n ⟨urlOld, some ⟨"a.com".toList, some 80, t⟩⟩).1,
       (HttpClient.fetch net0 n ⟨urlOld, some ⟨"a.com".toList, some 80, t⟩⟩).2.1,
       ⟨"a.com".toList, some 80, HttpClient.build_request urlOld⟩ ::
         (HttpClient.fetch net0 n ⟨urlOld, some ⟨"a.com".toList, some 80, t⟩⟩).2.2) := by
  simp only [headLoop]
  rw [fetch_single_header_exchange net0 n urlOld ("a.com".toList) (some 80)
    ("HTTP/1.1 302 Found\r".toList) ("Location".toList) (' ' :: "/old".toList) t
    ("HTTP/1.1".toList) ("302".toList) ("Found".toList)
    (by decide) (by decide) (by decide) (by decide) (by decide)]
  simp only [show lowerStr ("Location".toList) = "location".toList from by decide,
    show pyStrip ((' ' :: "/old".toList) ++ ['\r', '\n']) = "/old".toList from by decide,
    show dictHasKey ("content-encoding".toList) [("location".toList, "/old".toList)] = false from rfl,
    Bool.false_eq_true, if_false, eq_self_iff_true, or_true, if_true,
    show dictGet ("location".toList) [("location".toList, "/old".toList)] =
      some ("/old".toList) from rfl,
    show URL.init (if (['/'] : Str).isPrefixOf ("/old".toList) = true then
      urlOld.scheme ++ "://".toList ++ urlOld.host ++ "/old".toList else "/old".toList) =
      .ok urlOld from by decide]

/-- C6: redirect depth is unbounded.  On a connection that answers every
request with a 301/302-with-Location response (here: `n` copies of a 302
redirecting back to `/old`), `fetch` re-enters itself once per response —
the trace grows by one request per response — and never returns: for
EVERY fuel `n` not exceeding the number of redirect responses, the result
is the model's `outOfFuel` marker.  No depth counter exists in the code,
and the error type of the embedding has no `TooManyRedirectsError`-like
outcome: no bound terminates the loop. -/
theorem c6_unbounded_redirect_depth (n m : Nat) (h : n ≤ m) :
    (HttpClient.fetch net0 n
        ⟨urlOld, some ⟨"a.com".toList, some 80, loopStream m⟩⟩).1 = .error .outOfFuel ∧
    (HttpClient.fetch net0 n
        ⟨urlOld, some ⟨"a.com".toList, some 80, loopStream m⟩⟩).2.2.length = n := by
  induction n generalizing m with
  | zero => exact ⟨rfl, rfl⟩
  | succ n ih =>
    match m, h with
    | m + 1, _ =>
      have hm : n ≤ m := by omega
      rw [show loopStream (m + 1) = headLoop (loopStream m) from rfl]
      rw [fetch_loop_step]
      obtain ⟨ih1, ih2⟩ := ih m hm
      exact ⟨ih1, by rw [List.length_cons, ih2]⟩

/-- Witness for C6 at fuel 3 against a connection serving 3 redirects. -/
theorem c6_unbounded_redirect_depth_witness :
    (3 : Nat) ≤ 3 ∧
    ((HttpClient.fetch net0 3
        ⟨urlOld, some ⟨"a.com".toList, some 80, loopStream 3⟩⟩).1 = .error .outOfFuel ∧
     (HttpClient.fetch net0 3
        ⟨urlOld, some ⟨"a.com".toList, some 80, loopStream 3⟩⟩).2.2.length = 3) :=
  ⟨by decide, c6_unbounded_redirect_depth 3 3 (by decide)⟩

/-- Looking a key up in an extended dict still finds the old binding. -/
theorem dictGet_append_of_some {α : Type} (k : Str) (d e : Dict α) (v : α)
    (h : dictGet k d = some v) : dictGet k (d ++ e) = some v := by
  induction d with
  | nil => simp [dictGet] at h
  | cons p rest ih =>
    by_cases hp : p.1 = k
    · simp [dictGet, hp] at h
      simp [dictGet, hp, h]
    · simp [dictGet, hp] at h
      simp [dictGet, hp, ih h]

/-- `_get_client` never removes or overwrites an existing cache entry. -/
theorem get_client_preserves (b : BrowserObj) (url : URL) (st : PState) (k : Str) (cid : Nat)
    (h : dictGet k (st.dictHeap b.clientsRef) = some cid) :
    dictGet k ((Browser.get_client b url st).2.dictHeap b.clientsRef) = some cid := by
  unfold Browser.get_client
  rcases hg : dictGet (clientKey url) (st.dictHeap b.clientsRef) with _ | cid2
  · simp only [hg]
    exact dictGet_append_of_some k _ _ cid h
  · simp only [hg]
    exact h

/-- `load` never removes or overwrites an existing cache entry either: its
only cache access is through `_get_client`, and the post-fetch write-back
touches the client heap, not the dict heap. -/
theorem load_preserves (net : Net) (fuel : Nat) (b : BrowserObj) (raw : Str) (st : PState)
    (k : Str) (cid : Nat)
    (h : dictGet k (st.dictHeap b.clientsRef) = some cid) :
    dictGet k ((Browser.load net fuel b raw st).2.dictHeap b.clientsRef) = some cid := by
  unfold Browser.load
  cases hu : URL.init raw with
  | error e => simpa using h
  | ok url =>
    by_cases hd : url.scheme = "data".toList
    · simp only [hd, if_true]
      simpa using h
    · by_cases hf : url.scheme = "file".toList
      · simp only [hd, if_false, hf, if_true]
        simpa using h
      · simp only [hd, hf, if_false]
        rcases hr : (HttpClient.fetch net fuel
            ((Browser.get_client b url st).2.clientHeap (Browser.get_client b url st).1)).1 with e | bd <;>
          simp only [hr] <;>
          exact get_client_preserves b url st k cid h

/-- A network oracle serving one body-less 200 response on every
connection. -/
def net1 : Net := fun _ _ => ("HTTP/1.1 200 OK\r\ncontent-length: 0\r\n\r\n".toList)

/-- The initial process state: the class-level dict (and every other heap
cell) empty, no clients allocated. -/
def st0 : PState := ⟨fun _ => [], fun _ => ⟨⟨[], [], none, [], false⟩, none⟩, 0⟩

/-- The parse of `http://a.com/y`. -/
def urlAy : URL := ⟨"http".toList, "a.com".toList, some 80, "/y".toList, false⟩

/-- C10: `Browser.clients` is class-level state shared by all instances.
Part 1: for any two bare `Browser` instances (no instance-level `clients`
attribute — the class defines no `__init__` and never assigns one), after
the first loads `http://a.com/x`, `_get_client` on the SECOND instance
for the same `a.com:80` key returns the very same `HttpClient` object
(heap index 0, the one the first instance created), that client holds its
open socket, and the second instance reads and leaves the very dict the
first instance wrote — the cache is process-wide, not per-instance.
Parts 2 and 3: no `Browser` operation (`_get_client`, `load`) ever
removes or overwrites an existing entry of that dict. -/
theorem c10_shared_class_cache :
    (∀ (b1 b2 : BrowserObj), b1.clientsAttr = none → b2.clientsAttr = none →
      (Browser.get_client b2 urlAy
          ((Browser.load net1 1 b1 ("http://a.com/x".toList) st0).2)).1 = 0 ∧
      dictGet (clientKey urlAy)
        (((Browser.load net1 1 b1 ("http://a.com/x".toList) st0).2).dictHeap b2.clientsRef) =
        some 0 ∧
      (((Browser.load net1 1 b1 ("http://a.com/x".toList) st0).2).clientHeap 0).socket.isSome =
        true ∧
      ((Browser.get_client b2 urlAy
          ((Browser.load net1 1 b1 ("http://a.com/x".toList) st0).2)).2).dictHeap b2.clientsRef =
        ((Browser.load net1 1 b1 ("http://a.com/x".toList) st0).2).dictHeap b1.clientsRef) ∧
    (∀ (b : BrowserObj) (url : URL) (st : PState) (k : Str) (cid : Nat),
      dictGet k (st.dictHeap b.clientsRef) = some cid →
      dictGet k ((Browser.get_client b url st).2.dictHeap b.clientsRef) = some cid) ∧
    (∀ (net : Net) (fuel : Nat) (b : BrowserObj) (raw : Str) (st : PState) (k : Str) (cid : Nat),
      dictGet k (st.dictHeap b.clientsRef) = some cid →
      dictGet k ((Browser.load net fuel b raw st).2.dictHeap b.clientsRef) = some cid) := by
  refine ⟨?_, get_client_preserves, load_preserves⟩
  intro b1 b2 h1 h2
  obtain ⟨a1⟩ := b1
  obtain ⟨a2⟩ := b2
  have h1' : a1 = none := h1
  have h2' : a2 = none := h2
  subst h1'
  subst h2'
  decide

/-- Witness for C10's universally quantified parts at concrete inputs:
two bare instances, and a prefilled one-entry cache that `_get_client`
and `load` both preserve. -/
theorem c10_shared_class_cache_witness :
    ((⟨none⟩ : BrowserObj).clientsAttr = none ∧
     (Browser.get_client (⟨none⟩ : BrowserObj) urlAy
        ((Browser.load net1 1 (⟨none⟩ : BrowserObj) ("http://a.com/x".toList) st0).2)).1 = 0) ∧
    dictGet ("k".toList)
      ((PState.mk (fun _ => [(("k".toList), 7)]) (fun _ => ⟨urlAy, none⟩) 9).dictHeap
        (⟨none⟩ : BrowserObj).clientsRef) = some 7 ∧
    dictGet ("k".toList)
      ((Browser.get_client (⟨none⟩ : BrowserObj) urlAy
          (PState.mk (fun _ => [(("k".toList), 7)]) (fun _ => ⟨urlAy, none⟩) 9)).2.dictHeap
        (⟨none⟩ : BrowserObj).clientsRef) = some 7 ∧
    dictGet ("k".toList)
      ((Browser.load net1 0 (⟨none⟩ : BrowserObj) ("http://a.com/x".toList)
          (PState.mk (fun _ => [(("k".toList), 7)]) (fun _ => ⟨urlAy, none⟩) 9)).2.dictHeap
        (⟨none⟩ : BrowserObj).clientsRef) = some 7 :=
  ⟨⟨rfl, (c10_shared_class_cache.1 ⟨none⟩ ⟨none⟩ rfl rfl).1⟩,
   by decide,
   c10_shared_class_cache.2.1 ⟨none⟩ urlAy
     (PState.mk (fun _ => [(("k".toList), 7)]) (fun _ => ⟨urlAy, none⟩) 9) ("k".toList) 7
     (by decide),
   c10_shared_class_cache.2.2 net1 0 ⟨none⟩ ("http://a.com/x".toList)
     (PState.mk (fun _ => [(("k".toList), 7)]) (fun _ => ⟨urlAy, none⟩) 9) ("k".toList) 7
     (by decide)⟩

/-- Witness for C8's amended theorem on `view-source:http://a.com/x`. -/
theorem c8_vs_parses_remainder_witness :
    (("data:".toList).isPrefixOf ("http://a.com/x".toList) = false ∧
     ("file:".toList).isPrefixOf ("http://a.com/x".toList) = false ∧
     ("view-source:".toList).isPrefixOf ("http://a.com/x".toList) = false ∧
     splitOnce ("://".toList) ("http://a.com/x".toList) =
       some ("http".toList, "a.com/x".toList)) ∧
    URL.init (("view-source:".toList) ++ ("http://a.com/x".toList)) =
      (URL.init ("http://a.com/x".toList)).map (fun u => { u with is_view_source := true }) :=
  ⟨⟨by decide, by decide, by decide, by decide⟩,
   c8_vs_parses_remainder ("http://a.com/x".toList) ("http".toList) ("a.com/x".toList)
     (by decide) (by decide) (by decide) (by decide)⟩
